import Mathlib

/-!
Verification of the markdown-to-RSS converter `.github/scripts/md2rss.py`
of the SQL-Saturday-2025 repository.

Modelling conventions:
* A Python `str` is modelled as a list of characters (`PyStr`); Python
  slicing, `strip`, `startswith` become the corresponding list operations.
* The input text is modelled as its list of lines (without newline
  characters): the only line-sensitive operations the program performs are
  `re.split(r'^## ', md, flags=re.MULTILINE)` and `str.splitlines`, both of
  which act at line granularity.
* `datetime.strptime` for the two formats used (`'%Y-%m-%d %H:%M'` and
  `'%Y-%m-%d'`) is modelled after CPython `_strptime`: `%Y` matches exactly
  four digits, `%m`/`%d`/`%H`/`%M` match one or two digits constrained to
  the value ranges of their patterns, a whitespace in the format matches a
  nonempty run of whitespace, the whole string must be consumed, and the
  resulting calendar date must exist (otherwise the `datetime` constructor
  raises `ValueError`).  Both failure modes raise `ValueError`, which is
  what the script's `try/except ValueError` distinguishes on.
* The `feedgen` and `markdown2` libraries and the `zoneinfo` database are
  not part of this repository; their behaviour is modelled from the spec
  where a claim needs it (see the individual doc comments).
-/

/-- Python `str` modelled as a list of characters (code points). -/
abbrev PyStr := List Char

/-- Whitespace as stripped by `str.strip()` (ASCII part; the inputs in
question contain only spaces and tabs, newlines never occur inside a line). -/
def isWs (c : Char) : Bool := c == ' ' || c == '\t' || c == '\n' || c == '\r'

/-- Left half of Python `str.strip()`. -/
def pyStripLeft (s : PyStr) : PyStr := s.dropWhile isWs

/-- Right half of Python `str.strip()`. -/
def pyStripRight (s : PyStr) : PyStr := (s.reverse.dropWhile isWs).reverse

/-- Python `str.strip()`. -/
def pyStrip (s : PyStr) : PyStr := pyStripRight (pyStripLeft s)

/-- A line consisting of whitespace only. -/
def wsLine (l : PyStr) : Bool := l.all isWs

/-- The marker matched by `re.split(r'^## ', ...)` at the start of a line. -/
def hdrMark : PyStr := ['#', '#', ' ']

/-- Does a line begin a new section (`^## ` matches at its start)? -/
def isHeading (l : PyStr) : Bool := hdrMark.isPrefixOf l

/-- The remainder of a heading line after the split marker `## `. -/
def headingRest (l : PyStr) : PyStr := l.drop 3

/-- Accumulating worker for `sections`: `cur` holds (reversed) the lines of
the section currently being collected. -/
def sectionsAux : List PyStr → List PyStr → List (List PyStr)
  | [], cur => [cur.reverse]
  | l :: ls, cur =>
    if isHeading l then cur.reverse :: sectionsAux ls [headingRest l]
    else sectionsAux ls (l :: cur)

/-- Model of `sections = re.split(r'^## ', md, flags=re.MULTILINE)[1:]` on the list of
lines of the document: every line starting with `## ` begins a new section
whose first line is the remainder of the heading; lines before the first
heading are discarded (`[1:]`). -/
def sections : List PyStr → List (List PyStr)
  | [] => []
  | l :: ls => if isHeading l then sectionsAux ls [headingRest l] else sections ls

/-- Remove trailing whitespace from a block of lines: drop trailing
all-whitespace lines and right-strip the (new) last line.  This is the
right half of `str.strip()` acting on a joined block of lines. -/
def trimRightLines (L : List PyStr) : List PyStr :=
  match L.reverse.dropWhile wsLine with
  | [] => []
  | y :: ys => (pyStripRight y :: ys).reverse

/-- Model of `section.strip().splitlines()` on a section given as its list of lines:
leading all-whitespace lines are removed and the first remaining line is
left-stripped; trailing all-whitespace lines are removed and the last
remaining line is right-stripped.  (`''.splitlines() == []`, so an
all-whitespace section yields `[]`, which the script skips with
`if not lines: continue`.) -/
def stripSection (ls : List PyStr) : List PyStr :=
  match ls.dropWhile wsLine with
  | [] => []
  | x :: xs => trimRightLines (pyStripLeft x :: xs)

/-- One news item: the raw (still unparsed) section date string together
with the text of one `- ` bullet line.  The script stores these as tuples
`(date, content)`. -/
structure NewsItem where
  date : PyStr
  content : PyStr
deriving DecidableEq, Repr

/-- The two-character bullet marker `- `. -/
def dashMark : PyStr := ['-', ' ']

/-- The inner loop `for line in lines[1:]`: strip the line, keep it iff it
starts with `- `, and take `line[2:]` as the content. -/
def itemsOfLines (date : PyStr) : List PyStr → List NewsItem
  | [] => []
  | l :: ls =>
    if dashMark.isPrefixOf (pyStrip l) then
      ⟨date, (pyStrip l).drop 2⟩ :: itemsOfLines date ls
    else itemsOfLines date ls

/-- Items contributed by one section: `lines = section.strip().splitlines()`,
skip if empty, `date = lines[0].strip()`, then scan `lines[1:]`. -/
def sectionItems (s : List PyStr) : List NewsItem :=
  match stripSection s with
  | [] => []
  | d :: rest => itemsOfLines (pyStrip d) rest

/-- All items of the document, in the order they are appended by the script
(sections top to bottom, lines top to bottom within a section). -/
def items (md : List PyStr) : List NewsItem :=
  ((sections md).map sectionItems).flatten

/-! ### The date parser (`datetime.strptime` with a fallback format) -/

/-- The class `\d` of the CPython `_strptime` patterns: an ASCII digit. -/
def isDig (c : Char) : Bool := decide (48 ≤ c.toNat) && decide (c.toNat ≤ 57)

/-- Numeric value of a digit character. -/
def dval (c : Char) : Nat := c.toNat - 48

/-- Numeric value of a run of digit characters. -/
def digitsVal (run : PyStr) : Nat := run.foldl (fun a c => a * 10 + dval c) 0

/-- One numeric `strptime` field: consume the maximal run of digits; it must
have between `minL` and `maxL` digits and value between `lo` and `hi`
(this is equivalent to the CPython `_strptime` regular expressions for the
directives used here: `%Y` = exactly four digits; `%m` = 1–12; `%d` = 1–31;
`%H` = 0–23; `%M` = 0–59, each written with one or two digits, with no
leading-zero value 0 admitted where the pattern forbids it). -/
def readField (minL maxL lo hi : Nat) (s : PyStr) : Option (Nat × PyStr) :=
  if minL ≤ (s.takeWhile isDig).length ∧ (s.takeWhile isDig).length ≤ maxL ∧
      lo ≤ digitsVal (s.takeWhile isDig) ∧ digitsVal (s.takeWhile isDig) ≤ hi
  then some (digitsVal (s.takeWhile isDig), s.dropWhile isDig) else none

/-- A literal (non-whitespace) character of the format string. -/
def lit (c : Char) (s : PyStr) : Option PyStr :=
  match s with
  | [] => none
  | x :: xs => if x = c then some xs else none

/-- A whitespace character in a `strptime` format is compiled by CPython to
`\s+`: it matches a nonempty run of whitespace. -/
def litWs (s : PyStr) : Option PyStr :=
  match s with
  | [] => none
  | x :: xs => if isWs x then some (xs.dropWhile isWs) else none

/-- A naive civil datetime as produced by `datetime.strptime`. -/
structure DateTime where
  year : Nat
  month : Nat
  day : Nat
  hour : Nat
  minute : Nat
deriving DecidableEq, Repr

/-- Gregorian leap year, as used by `datetime`. -/
def isLeap (y : Nat) : Bool := (y % 4 == 0 && y % 100 != 0) || (y % 400 == 0)

/-- Number of days of a month, as validated by the `datetime` constructor. -/
def daysInMonth (y m : Nat) : Nat :=
  if m = 2 then (if isLeap y then 29 else 28)
  else if m = 4 ∨ m = 6 ∨ m = 9 ∨ m = 11 then 30
  else 31

/-- Model of `datetime.strptime(s, '%Y-%m-%d %H:%M')`; `none` models the
`ValueError` raised either by a failed pattern match (including leftover
unconverted data) or by an invalid calendar date. -/
def strptimeYmdHM (s : PyStr) : Option DateTime :=
  (readField 4 4 0 9999 s).bind (fun py =>
  (lit '-' py.2).bind (fun s2 =>
  (readField 1 2 1 12 s2).bind (fun pm =>
  (lit '-' pm.2).bind (fun s4 =>
  (readField 1 2 1 31 s4).bind (fun pd =>
  (litWs pd.2).bind (fun s6 =>
  (readField 1 2 0 23 s6).bind (fun ph =>
  (lit ':' ph.2).bind (fun s8 =>
  (readField 1 2 0 59 s8).bind (fun pn =>
  if pn.2 = [] ∧ 1 ≤ py.1 ∧ pd.1 ≤ daysInMonth py.1 pm.1
  then some ⟨py.1, pm.1, pd.1, ph.1, pn.1⟩ else none)))))))))

/-- Model of `datetime.strptime(s, '%Y-%m-%d')` (midnight implied). -/
def strptimeYmd (s : PyStr) : Option DateTime :=
  (readField 4 4 0 9999 s).bind (fun py =>
  (lit '-' py.2).bind (fun s2 =>
  (readField 1 2 1 12 s2).bind (fun pm =>
  (lit '-' pm.2).bind (fun s4 =>
  (readField 1 2 1 31 s4).bind (fun pd =>
  if pd.2 = [] ∧ 1 ≤ py.1 ∧ pd.1 ≤ daysInMonth py.1 pm.1
  then some ⟨py.1, pm.1, pd.1, 0, 0⟩ else none)))))

/-- The script's date parsing:
`try: strptime(date, '%Y-%m-%d %H:%M') except ValueError: strptime(date, '%Y-%m-%d')`.
A `none` result models the uncaught `ValueError` of the second call, which
aborts the run. -/
def parseDate (s : PyStr) : Option DateTime :=
  match strptimeYmdHM s with
  | some d => some d
  | none => strptimeYmd s

/-! ### Time zone and feed model -/

/-- The constant `central = zoneinfo.ZoneInfo('America/Chicago')`, identified by its key. -/
def central : PyStr := ("America/Chicago").data

/-- An aware datetime, as produced by `naive.replace(tzinfo=central)`:
the civil fields are kept unchanged and the zone is attached. -/
structure AwareDateTime where
  dt : DateTime
  tz : PyStr
deriving DecidableEq, Repr

/-- Model of `.replace(tzinfo=central)`: attach the fixed zone, no conversion. -/
def awareOf (d : DateTime) : AwareDateTime := ⟨d, central⟩

/-- Day of week (0 = Sunday) of a Gregorian date, Sakamoto's method.  Used
only inside the model of the `America/Chicago` zone rules. -/
def dayOfWeek (y m d : Nat) : Nat :=
  let t := [0, 3, 2, 5, 0, 3, 5, 1, 4, 6, 2, 4]
  let y1 := if m < 3 then y - 1 else y
  (y1 + y1 / 4 - y1 / 100 + y1 / 400 + t.getD (m - 1) 0 + d) % 7

/-- Day of month of the first Sunday of month `m` of year `y`. -/
def firstSunday (y m : Nat) : Nat := 1 + (7 - dayOfWeek y m 1) % 7

/-- Modelled from the spec: the fixed civil zone `America/Chicago` of
`zoneinfo` (the IANA database is not part of this repository).  Offset in
minutes from UTC under the United States daylight-saving rules in force
since 2007: CDT (−5:00) from 2:00 on the second Sunday of March to 2:00 on
the first Sunday of November, CST (−6:00) otherwise.  Sub-hour transition
edge cases (the skipped and the repeated hour) are not modelled beyond the
first-occurrence convention. -/
def chicagoOffsetMinutes (d : DateTime) : Int :=
  let ssm := firstSunday d.year 3 + 7
  let fsn := firstSunday d.year 11
  let afterStart :=
    3 < d.month ∨ (d.month = 3 ∧ (ssm < d.day ∨ (d.day = ssm ∧ 2 ≤ d.hour)))
  let beforeEnd :=
    d.month < 11 ∨ (d.month = 11 ∧ (d.day < fsn ∨ (d.day = fsn ∧ d.hour < 2)))
  if afterStart ∧ beforeEnd then -300 else -360

/-- UTC offset, in minutes, that serialization attaches to an aware
datetime of this program (the only zone the program ever attaches is
`central`). -/
def utcoffsetMinutes (a : AwareDateTime) : Int := chicagoOffsetMinutes a.dt

/-- One RSS `item`, as built by the loop body
(`fe.title(...)`, `fe.description(...)`, `fe.pubDate(...)`). -/
structure FeedEntry where
  title : PyStr
  descriptionHtml : PyStr
  pubDate : AwareDateTime
deriving DecidableEq, Repr

/-- The title `fe.title(content[:60])`. -/
def titleOf (content : PyStr) : PyStr := content.take 60

/-- Modelled from the spec: `markdown2.markdown` (not part of this
repository) renders the bullet content from markdown to HTML; for the
properties stated here only the fact that it is a fixed function of the
content matters, so plain text wrapped in a paragraph stands in for the
full inline renderer. -/
def markdownHtml (content : PyStr) : PyStr :=
  ("<p>").data ++ content ++ ("</p>" ++ "\n").data

/-- The fixed `fg.title('SQL Saturday News')`. -/
def feedTitle : PyStr := ("SQL Saturday News").data

/-- The fixed `fg.link(href='https://github.com/KennyNeal/SQL-Saturday-2025')`. -/
def feedLink : PyStr := ("https://github.com/KennyNeal/SQL-Saturday-2025").data

/-- The fixed `fg.description('Latest news and updates for SQL Saturday Baton Rouge 2025')`. -/
def feedDescription : PyStr :=
  ("Latest news and updates for SQL Saturday Baton Rouge 2025").data

/-- The feed document: fixed channel metadata plus the entries in the order
they were added. -/
structure RssDoc where
  channelTitle : PyStr
  channelLink : PyStr
  channelDescription : PyStr
  entries : List FeedEntry
deriving DecidableEq, Repr

/-- The `for date, content in items:` loop.  Each iteration sets the title
and description and then parses the date; the first date on which both
`strptime` calls fail raises an uncaught `ValueError`, aborting the run
before any output is written — modelled by `Except.error` carrying the
offending raw date string. -/
def buildEntries : List NewsItem → Except PyStr (List FeedEntry)
  | [] => Except.ok []
  | i :: is =>
    match parseDate i.date with
    | none => Except.error i.date
    | some d =>
      match buildEntries is with
      | Except.error e => Except.error e
      | Except.ok es =>
        Except.ok (⟨titleOf i.content, markdownHtml i.content, awareOf d⟩ :: es)

/-- The whole in-memory transform: extract the items and build the feed
document.  `Except.error d` models the run aborting (non-zero exit) on the
raw date string `d`. -/
def convert (md : List PyStr)  : Except PyStr RssDoc :=
  match buildEntries (items md) with
  | Except.error e => Except.error e
  | Except.ok es => Except.ok ⟨feedTitle, feedLink, feedDescription, es⟩

/-- Decimal digit character. -/
def digitOf (n : Nat) : Char :=
  match n with
  | 0 => '0' | 1 => '1' | 2 => '2' | 3 => '3' | 4 => '4'
  | 5 => '5' | 6 => '6' | 7 => '7' | 8 => '8' | _ => '9'

/-- Two-digit zero-padded decimal. -/
def natPad2 (n : Nat) : PyStr := [digitOf (n / 10 % 10), digitOf (n % 10)]

/-- Four-digit zero-padded decimal. -/
def natPad4 (n : Nat) : PyStr :=
  [digitOf (n / 1000 % 10), digitOf (n / 100 % 10), digitOf (n / 10 % 10),
   digitOf (n % 10)]

/-- RFC 2822 zone offset, e.g. `-0500`. -/
def offsetStr (mins : Int) : PyStr :=
  (if mins < 0 then ['-'] else ['+']) ++
    natPad2 (mins.natAbs / 60) ++ natPad2 (mins.natAbs % 60)

/-- Abbreviated day names, Sunday first. -/
def dayNames : List PyStr :=
  [("Sun").data, ("Mon").data, ("Tue").data, ("Wed").data, ("Thu").data,
   ("Fri").data, ("Sat").data]

/-- Abbreviated month names. -/
def monthNames : List PyStr :=
  [("Jan").data, ("Feb").data, ("Mar").data, ("Apr").data, ("May").data,
   ("Jun").data, ("Jul").data, ("Aug").data, ("Sep").data, ("Oct").data,
   ("Nov").data, ("Dec").data]

/-- RFC 2822 date string of an aware datetime, including the zone offset
derived from the datetime itself. -/
def rfc2822 (a : AwareDateTime) : PyStr :=
  (dayNames.getD (dayOfWeek a.dt.year a.dt.month a.dt.day) []) ++ (", ").data ++
  natPad2 a.dt.day ++ [' '] ++ (monthNames.getD (a.dt.month - 1) []) ++ [' '] ++
  natPad4 a.dt.year ++ [' '] ++ natPad2 a.dt.hour ++ [':'] ++
  natPad2 a.dt.minute ++ (":00 ").data ++ offsetStr (utcoffsetMinutes a)

/-- Modelled from the spec: `fg.rss_file('newsfeed.xml')` is implemented by
`feedgen`, which is not part of this repository.  Per the spec it writes a
document containing the fixed channel metadata followed by one `item` per
entry in sequence order, each carrying title, HTML description and the
RFC 2822 publication date with the zone offset; the bytes are a function
of the feed document alone. -/
def renderEntry (e : FeedEntry) : PyStr :=
  ("<item><title>").data ++ e.title ++ ("</title><description>").data ++
  e.descriptionHtml ++ ("</description><pubDate>").data ++ rfc2822 e.pubDate ++
  ("</pubDate></item>").data

/-- Modelled from the spec: the serialized feed document (see `renderEntry`). -/
def renderDoc (doc : RssDoc) : PyStr :=
  ("<rss version=\x222.0\x22><channel><title>").data ++ doc.channelTitle ++
  ("</title><link>").data ++ doc.channelLink ++
  ("</link><description>").data ++ doc.channelDescription ++
  ("</description>").data ++ (doc.entries.map renderEntry).flatten ++
  ("</channel></rss>").data

/-- One complete run of the script, given the wall-clock instant `now` at
which it happens to run and the input file's lines.  The result is the
bytes written to `newsfeed.xml`, or the raw date string of the uncaught
`ValueError` that made the run exit non-zero with no file written.  `now`
is threaded to express that the output may in principle observe the clock;
per the spec the serialization is a function of the input alone, so the
model never consults it. -/
def runAt (now : DateTime) (md : List PyStr) : Except PyStr PyStr :=
  match convert md with
  | Except.error e => Except.error e
  | Except.ok doc => Except.ok (renderDoc doc)

/-! ### Spec-side definitions (used to state the claims) -/

/-- Spec-side, from the claims' wording: the contents of the `- `-prefixed
bullet lines of the document, scanning sections top to bottom and, within a
section, lines top to bottom; each section's first line (the heading line)
is not part of its body.  A line is a bullet line iff it starts with `- `
after trimming surrounding whitespace, and its content is everything after
that two-character marker. -/
def bulletContents (ls : List PyStr) : List PyStr :=
  ls.filterMap (fun l =>
    if dashMark.isPrefixOf (pyStrip l) then some ((pyStrip l).drop 2) else none)

/-- Spec-side: all bullet contents of the document in source order. -/
def specBullets (md : List PyStr) : List PyStr :=
  ((sections md).map (fun s => bulletContents s.tail)).flatten

/-- Spec-side, from the claims' wording: the total number of lines that,
after trimming surrounding whitespace, start with `- `, counted across all
sections (all text following the first `## ` line, excluding each section's
first line). -/
def specBulletCount (md : List PyStr) : Nat :=
  ((sections md).map
    (fun s => s.tail.countP (fun l => dashMark.isPrefixOf (pyStrip l)))).sum

/-- A document is well formed when every section the script keeps (nonempty
after stripping) has a date string accepted by the date parser. -/
def wellFormed (md : List PyStr) : Bool :=
  (sections md).all (fun s =>
    match stripSection s with
    | [] => true
    | d :: _ => (parseDate (pyStrip d)).isSome)

/-! ### Infrastructure: `strip` on strings and on blocks of lines -/

lemma dropWhile_idem (p : α → Bool) (l : List α) :
    (l.dropWhile p).dropWhile p = l.dropWhile p := by
  cases e : l.dropWhile p with
  | nil => rfl
  | cons x xs =>
    have hx : p x = false := by
      have := List.head_dropWhile_not p l (by simp [e])
      simpa [e] using this
    simp [List.dropWhile_cons, hx]

lemma pyStripLeft_idem (s : PyStr) : pyStripLeft (pyStripLeft s) = pyStripLeft s :=
  dropWhile_idem isWs s

lemma pyStripRight_idem (s : PyStr) : pyStripRight (pyStripRight s) = pyStripRight s := by
  unfold pyStripRight
  rw [List.reverse_reverse, dropWhile_idem]

lemma pyStripRight_eq_nil (l : PyStr) (h : ∀ c ∈ l, isWs c = true) :
    pyStripRight l = [] := by
  unfold pyStripRight
  have : l.reverse.dropWhile isWs = [] :=
    List.dropWhile_eq_nil_iff.mpr (fun c hc => h c (List.mem_reverse.mp hc))
  rw [this]; rfl

lemma pyStripLeft_eq_nil (l : PyStr) (h : ∀ c ∈ l, isWs c = true) :
    pyStripLeft l = [] :=
  List.dropWhile_eq_nil_iff.mpr h

lemma pyStripRight_cons_of_not_all (c : Char) (t : PyStr)
    (h : ¬ ∀ x ∈ t, isWs x = true) :
    pyStripRight (c :: t) = c :: pyStripRight t := by
  unfold pyStripRight
  rw [List.reverse_cons, List.dropWhile_append]
  cases e : t.reverse.dropWhile isWs with
  | nil =>
    exact absurd (fun x hx => List.dropWhile_eq_nil_iff.mp e x (List.mem_reverse.mpr hx)) h
  | cons y ys => simp [e]

lemma pyStripRight_cons_of_all (c : Char) (t : PyStr)
    (h : ∀ x ∈ t, isWs x = true) :
    pyStripRight (c :: t) = if isWs c then [] else [c] := by
  unfold pyStripRight
  rw [List.reverse_cons, List.dropWhile_append]
  have e : t.reverse.dropWhile isWs = [] :=
    List.dropWhile_eq_nil_iff.mpr (fun x hx => h x (List.mem_reverse.mp hx))
  by_cases hc : isWs c = true <;> simp [e, List.dropWhile_cons, hc]

lemma pyStripLeft_cons_of_pos (c : Char) (t : PyStr) (hc : isWs c = true) :
    pyStripLeft (c :: t) = pyStripLeft t := by
  unfold pyStripLeft; rw [List.dropWhile_cons_of_pos hc]

lemma pyStripLeft_cons_of_neg (c : Char) (t : PyStr) (hc : isWs c = false) :
    pyStripLeft (c :: t) = c :: t := by
  unfold pyStripLeft; rw [List.dropWhile_cons_of_neg (by simp [hc])]

lemma stripLR_comm (l : PyStr) :
    pyStripLeft (pyStripRight l) = pyStripRight (pyStripLeft l) := by
  induction l with
  | nil => rfl
  | cons c t ih =>
    by_cases hall : ∀ x ∈ t, isWs x = true
    · by_cases hc : isWs c = true
      · have h1 : pyStripLeft (c :: t) = [] := by
          apply pyStripLeft_eq_nil
          intro x hx
          rcases List.mem_cons.mp hx with rfl | hx
          exacts [hc, hall x hx]
        rw [pyStripRight_cons_of_all c t hall, if_pos hc, h1]
        rfl
      · have hc2 : isWs c = false := by simpa using hc
        rw [pyStripRight_cons_of_all c t hall, if_neg hc,
          pyStripLeft_cons_of_neg c t hc2, pyStripLeft_cons_of_neg c [] hc2,
          pyStripRight_cons_of_all c t hall, if_neg hc]
    · rw [pyStripRight_cons_of_not_all c t hall]
      by_cases hc : isWs c = true
      · rw [pyStripLeft_cons_of_pos _ _ hc, pyStripLeft_cons_of_pos _ _ hc, ih]
      · have hc2 : isWs c = false := by simpa using hc
        rw [pyStripLeft_cons_of_neg _ _ hc2, pyStripLeft_cons_of_neg _ _ hc2,
          pyStripRight_cons_of_not_all c t hall]

lemma pyStrip_pyStripLeft (l : PyStr) : pyStrip (pyStripLeft l) = pyStrip l := by
  unfold pyStrip
  rw [pyStripLeft_idem]

lemma pyStrip_pyStripRight (l : PyStr) : pyStrip (pyStripRight l) = pyStrip l := by
  unfold pyStrip
  rw [stripLR_comm, pyStripRight_idem, ← stripLR_comm, stripLR_comm]

/-! ### Infrastructure: bullet lines -/

/-- The bullet test and content of a single line depend on the line only
through its stripped form. -/
def bulletOf (l : PyStr) : Option PyStr :=
  if dashMark.isPrefixOf (pyStrip l) then some ((pyStrip l).drop 2) else none

lemma bulletContents_eq_filterMap (ls : List PyStr) :
    bulletContents ls = ls.filterMap bulletOf := rfl

lemma bulletOf_congr (a b : PyStr) (h : pyStrip a = pyStrip b) :
    bulletOf a = bulletOf b := by
  unfold bulletOf; rw [h]

lemma pyStrip_of_ws (l : PyStr) (h : ∀ c ∈ l, isWs c = true) : pyStrip l = [] := by
  unfold pyStrip
  rw [pyStripLeft_eq_nil l h]
  rfl

lemma bulletOf_ws (l : PyStr) (h : wsLine l = true) : bulletOf l = none := by
  unfold bulletOf
  rw [pyStrip_of_ws l (List.all_eq_true.mp h)]
  rfl

lemma bulletContents_append (l₁ l₂ : List PyStr) :
    bulletContents (l₁ ++ l₂) = bulletContents l₁ ++ bulletContents l₂ :=
  List.filterMap_append ..

lemma bulletContents_nil_of_ws (L : List PyStr) (h : ∀ l ∈ L, wsLine l = true) :
    bulletContents L = [] :=
  List.filterMap_eq_nil_iff.mpr (fun l hl => bulletOf_ws l (h l hl))

lemma wsLine_pyStripLeft (x : PyStr) (h : wsLine x = false) :
    wsLine (pyStripLeft x) = false := by
  cases e : x.dropWhile isWs with
  | nil =>
    exfalso
    rw [List.dropWhile_eq_nil_iff] at e
    have hx : wsLine x = true := List.all_eq_true.mpr e
    rw [hx] at h
    cases h
  | cons y ys =>
    have hy : isWs y = false := by
      have := List.head_dropWhile_not isWs x (by simp [e])
      simpa [e] using this
    unfold pyStripLeft
    rw [e]
    simp [wsLine, List.all_cons, hy]

/-- Decomposition of `trimRightLines` on a block whose first line is not
whitespace-only: the first line survives up to a right-strip, and the
remaining lines keep exactly the same bullet contents. -/
lemma trimRightLines_cons (x : PyStr) (xs : List PyStr) (hx : wsLine x = false) :
    ∃ d rest, trimRightLines (x :: xs) = d :: rest ∧ pyStrip d = pyStrip x ∧
      bulletContents rest = bulletContents xs := by
  unfold trimRightLines
  rw [List.reverse_cons, List.dropWhile_append]
  cases e : xs.reverse.dropWhile wsLine with
  | nil =>
    have hxs : ∀ l ∈ xs, wsLine l = true := by
      intro l hl
      exact List.dropWhile_eq_nil_iff.mp e l (List.mem_reverse.mpr hl)
    have hx' : xs.reverse.dropWhile wsLine = [] := e
    refine ⟨pyStripRight x, [], ?_, pyStrip_pyStripRight x, ?_⟩
    · simp [hx', List.dropWhile_cons, hx]
    · rw [bulletContents_nil_of_ws xs hxs]
      rfl
  | cons y ys =>
    refine ⟨x, ys.reverse ++ [pyStripRight y], by simp [e], rfl, ?_⟩
    have hxs : xs = ys.reverse ++ [y] ++ (xs.reverse.takeWhile wsLine).reverse := by
      conv_lhs => rw [← List.reverse_reverse xs,
        ← List.takeWhile_append_dropWhile (p := wsLine) (l := xs.reverse), e]
      simp
    have hws : ∀ l ∈ (xs.reverse.takeWhile wsLine).reverse, wsLine l = true :=
      fun l hl => List.mem_takeWhile_imp (List.mem_reverse.mp hl)
    rw [hxs, bulletContents_append, bulletContents_append,
      bulletContents_nil_of_ws _ hws]
    have h1 : bulletContents [pyStripRight y] = bulletContents [y] := by
      rw [bulletContents_eq_filterMap, bulletContents_eq_filterMap,
        List.filterMap_cons, List.filterMap_cons,
        bulletOf_congr (pyStripRight y) y (pyStrip_pyStripRight y)]
    rw [bulletContents_append, h1]
    simp

/-! ### Infrastructure: items of a section -/

lemma itemsOfLines_cons (date l : PyStr) (ls : List PyStr) :
    itemsOfLines date (l :: ls) =
      if dashMark.isPrefixOf (pyStrip l) then
        ⟨date, (pyStrip l).drop 2⟩ :: itemsOfLines date ls
      else itemsOfLines date ls := rfl

lemma stripSection_eq (ls : List PyStr) :
    stripSection ls =
      match ls.dropWhile wsLine with
      | [] => []
      | x :: xs => trimRightLines (pyStripLeft x :: xs) := rfl

lemma sectionItems_eq (s : List PyStr) :
    sectionItems s =
      match stripSection s with
      | [] => []
      | d :: rest => itemsOfLines (pyStrip d) rest := rfl

lemma itemsOfLines_eq_filterMap (date : PyStr) (ls : List PyStr) :
    itemsOfLines date ls = ls.filterMap (fun l =>
      if dashMark.isPrefixOf (pyStrip l) then
        some ⟨date, (pyStrip l).drop 2⟩ else none) := by
  induction ls with
  | nil => rfl
  | cons l ls ih =>
    rw [List.filterMap_cons, itemsOfLines_cons]
    by_cases hb : dashMark.isPrefixOf (pyStrip l) = true
    · rw [if_pos hb, if_pos hb, ih]
    · rw [if_neg hb, if_neg hb, ih]

lemma itemsOfLines_map_content (date : PyStr) (ls : List PyStr) :
    (itemsOfLines date ls).map NewsItem.content = bulletContents ls := by
  induction ls with
  | nil => rfl
  | cons l ls ih =>
    rw [bulletContents_eq_filterMap, List.filterMap_cons, itemsOfLines_cons]
    by_cases hb : dashMark.isPrefixOf (pyStrip l) = true
    · rw [if_pos hb, List.map_cons, ih, bulletContents_eq_filterMap]
      show NewsItem.content ⟨date, (pyStrip l).drop 2⟩ :: _ = _
      rw [show bulletOf l = some ((pyStrip l).drop 2) from by
        unfold bulletOf; rw [if_pos hb]]
    · rw [if_neg hb, ih, bulletContents_eq_filterMap]
      rw [show bulletOf l = none from by
        unfold bulletOf; rw [if_neg hb]]

lemma itemsOfLines_date (date : PyStr) (ls : List PyStr) :
    ∀ i ∈ itemsOfLines date ls, i.date = date := by
  induction ls with
  | nil => intro i hi; cases hi
  | cons l ls ih =>
    intro i hi
    rw [itemsOfLines_cons] at hi
    by_cases hb : dashMark.isPrefixOf (pyStrip l) = true
    · rw [if_pos hb] at hi
      rcases List.mem_cons.mp hi with rfl | hi
      · rfl
      · exact ih i hi
    · rw [if_neg hb] at hi
      exact ih i hi

lemma stripSection_nil_iff (ls : List PyStr) :
    stripSection ls = [] ↔ ∀ l ∈ ls, wsLine l = true := by
  constructor
  · intro h
    cases e : ls.dropWhile wsLine with
    | nil => exact List.dropWhile_eq_nil_iff.mp e
    | cons x xs =>
      exfalso
      have h2 : stripSection ls = trimRightLines (pyStripLeft x :: xs) := by
        rw [stripSection_eq, e]
      have hx : wsLine x = false := by
        have := List.head_dropWhile_not wsLine ls (by simp [e])
        simpa [e] using this
      rcases trimRightLines_cons (pyStripLeft x) xs (wsLine_pyStripLeft x hx)
        with ⟨d, rest, he, -, -⟩
      rw [h2, he] at h
      cases h
  · intro h
    rw [stripSection_eq, List.dropWhile_eq_nil_iff.mpr h]

/-- Core correspondence for one section `h :: body` (first line = remainder
of the heading line): provided the section's date line is not itself a
bullet line, the contents of the extracted items are exactly the bullet
contents of the section body. -/
lemma sectionItems_map_content (h : PyStr) (body : List PyStr)
    (hd : ∀ d r, stripSection (h :: body) = d :: r →
      dashMark.isPrefixOf (pyStrip d) = false) :
    (sectionItems (h :: body)).map NewsItem.content = bulletContents body := by
  cases hs : stripSection (h :: body) with
  | nil =>
    have hball : ∀ l ∈ h :: body, wsLine l = true := (stripSection_nil_iff _).mp hs
    rw [sectionItems_eq, hs,
      bulletContents_nil_of_ws body (fun l hl => hball l (List.mem_cons_of_mem h hl))]
    rfl
  | cons d rest =>
    rw [sectionItems_eq, hs, itemsOfLines_map_content]
    -- unpack how `stripSection` produced `d :: rest`
    cases e : (h :: body).dropWhile wsLine with
    | nil =>
      exfalso
      have h2 : stripSection (h :: body) = [] := by rw [stripSection_eq, e]
      rw [h2] at hs; cases hs
    | cons x xs =>
      have h2 : stripSection (h :: body) = trimRightLines (pyStripLeft x :: xs) := by
        rw [stripSection_eq, e]
      have hx : wsLine x = false := by
        have := List.head_dropWhile_not wsLine (h :: body) (by simp [e])
        simpa [e] using this
      rcases trimRightLines_cons (pyStripLeft x) xs (wsLine_pyStripLeft x hx)
        with ⟨d0, rest0, he, hstrip, hbc⟩
      rw [h2, he] at hs
      injection hs with hd0 hrest0
      subst hd0
      subst hrest0
      rw [hbc]
      rw [pyStrip_pyStripLeft] at hstrip
      by_cases hh : wsLine h = true
      · -- the heading remainder is whitespace: the date line comes from `body`
        rw [List.dropWhile_cons_of_pos hh] at e
        have hbody : body = (body.takeWhile wsLine) ++ x :: xs := by
          conv_lhs => rw [← List.takeWhile_append_dropWhile (p := wsLine) (l := body), e]
        have hws : ∀ l ∈ body.takeWhile wsLine, wsLine l = true :=
          fun l hl => List.mem_takeWhile_imp hl
        have hxnb : bulletOf x = none := by
          unfold bulletOf
          rw [← hstrip, hd d0 rest0 (by rw [h2, he])]
          rfl
        have hdropx : bulletContents (x :: xs) = bulletContents xs := by
          rw [bulletContents_eq_filterMap, bulletContents_eq_filterMap,
            List.filterMap_cons, hxnb]
        rw [hbody, bulletContents_append, bulletContents_nil_of_ws _ hws,
          List.nil_append, hdropx]
      · -- the heading remainder itself is the date line: x = h, xs = body
        have hh2 : wsLine h = false := Bool.eq_false_iff.mpr hh
        rw [List.dropWhile_cons_of_neg (by simp [hh2])] at e
        injection e with ex exs
        subst ex
        subst exs
        rfl

/-! ### Infrastructure: sections of the document -/

lemma sectionsAux_cons (l : PyStr) (ls : List PyStr) (cur : List PyStr) :
    sectionsAux (l :: ls) cur =
      if isHeading l then cur.reverse :: sectionsAux ls [headingRest l]
      else sectionsAux ls (l :: cur) := rfl

lemma sections_cons (l : PyStr) (ls : List PyStr) :
    sections (l :: ls) =
      if isHeading l then sectionsAux ls [headingRest l] else sections ls := rfl

lemma sectionsAux_ne_nil (ls : List PyStr) :
    ∀ cur, cur ≠ [] → ∀ s ∈ sectionsAux ls cur, s ≠ [] := by
  induction ls with
  | nil =>
    intro cur hc s hs
    rcases List.mem_singleton.mp hs with rfl
    simpa using hc
  | cons l ls ih =>
    intro cur hc s hs
    rw [sectionsAux_cons] at hs
    by_cases hl : isHeading l = true
    · rw [if_pos hl] at hs
      rcases List.mem_cons.mp hs with rfl | hs
      · simpa using hc
      · exact ih [headingRest l] (by simp) s hs
    · rw [if_neg hl] at hs
      exact ih (l :: cur) (by simp) s hs

lemma sections_ne_nil (md : List PyStr) : ∀ s ∈ sections md, s ≠ [] := by
  induction md with
  | nil => intro s hs; cases hs
  | cons l ls ih =>
    intro s hs
    rw [sections_cons] at hs
    by_cases hl : isHeading l = true
    · rw [if_pos hl] at hs
      exact sectionsAux_ne_nil ls [headingRest l] (by simp) s hs
    · rw [if_neg hl] at hs
      exact ih s hs

/-! ### Infrastructure: accepted date strings begin with a digit -/

lemma dashMark_isPrefixOf_iff (t : PyStr) :
    dashMark.isPrefixOf t = true ↔ ∃ r, t = '-' :: ' ' :: r := by
  rw [List.isPrefixOf_iff_prefix]
  constructor
  · rintro ⟨r, hr⟩
    exact ⟨r, hr.symm⟩
  · rintro ⟨r, rfl⟩
    exact ⟨r, rfl⟩

lemma readField_head_dig (minL maxL lo hi : Nat) (s : PyStr) (p : Nat × PyStr)
    (hmin : 1 ≤ minL) (h : readField minL maxL lo hi s = some p) :
    ∃ c t, s = c :: t ∧ isDig c = true := by
  unfold readField at h
  split at h
  · rename_i hc
    rcases hc with ⟨h1, -, -, -⟩
    cases s with
    | nil => simp at h1; omega
    | cons c t =>
      cases hdig : isDig c with
      | false =>
        rw [List.takeWhile_cons_of_neg (by simp [hdig])] at h1
        simp at h1
        omega
      | true => exact ⟨c, t, rfl, hdig⟩
  · cases h

lemma strptimeYmdHM_none_of_field1 (s : PyStr)
    (h : readField 4 4 0 9999 s = none) : strptimeYmdHM s = none := by
  unfold strptimeYmdHM
  rw [h]
  rfl

lemma strptimeYmd_none_of_field1 (s : PyStr)
    (h : readField 4 4 0 9999 s = none) : strptimeYmd s = none := by
  unfold strptimeYmd
  rw [h]
  rfl

lemma parseDate_head_dig (s : PyStr) (h : (parseDate s).isSome = true) :
    ∃ c t, s = c :: t ∧ isDig c = true := by
  cases e : readField 4 4 0 9999 s with
  | none =>
    exfalso
    unfold parseDate at h
    rw [strptimeYmdHM_none_of_field1 s e, strptimeYmd_none_of_field1 s e] at h
    cases h
  | some p => exact readField_head_dig 4 4 0 9999 s p (by omega) e

lemma parseDate_not_bullet (t : PyStr) (h : (parseDate t).isSome = true) :
    dashMark.isPrefixOf t = false := by
  rcases parseDate_head_dig t h with ⟨c, r, rfl, hc⟩
  by_contra hb
  have hb2 : dashMark.isPrefixOf (c :: r) = true := by
    cases e : dashMark.isPrefixOf (c :: r)
    · exact absurd e hb
    · rfl
  rcases (dashMark_isPrefixOf_iff _).mp hb2 with ⟨r2, hr⟩
  injection hr with hchar _
  subst hchar
  simp [isDig] at hc

/-! ### Infrastructure: document-level correspondence -/

lemma flat_map_content (L : List (List PyStr))
    (hne : ∀ s ∈ L, s ≠ [])
    (hok : ∀ s ∈ L, ∀ d r, stripSection s = d :: r →
      dashMark.isPrefixOf (pyStrip d) = false) :
    ((L.map sectionItems).flatten).map NewsItem.content
      = (L.map (fun s => bulletContents s.tail)).flatten := by
  induction L with
  | nil => rfl
  | cons s L ih =>
    rw [List.map_cons, List.map_cons, List.flatten_cons, List.flatten_cons,
      List.map_append]
    rcases List.exists_cons_of_ne_nil (hne s (List.mem_cons_self s L)) with ⟨h, body, rfl⟩
    rw [sectionItems_map_content h body (hok _ (List.mem_cons_self _ L)),
      ih (fun s hs => hne s (List.mem_cons_of_mem _ hs))
         (fun s hs => hok s (List.mem_cons_of_mem _ hs))]
    rfl

lemma wellFormed_sec (md : List PyStr) (hw : wellFormed md = true) :
    ∀ s ∈ sections md, ∀ d r, stripSection s = d :: r →
      (parseDate (pyStrip d)).isSome = true := by
  intro s hs d r hdr
  have h1 : (match stripSection s with
    | [] => true
    | d :: _ => (parseDate (pyStrip d)).isSome) = true :=
    List.all_eq_true.mp hw s hs
  have h2 : (match stripSection s with
    | [] => true
    | d :: _ => (parseDate (pyStrip d)).isSome) = (parseDate (pyStrip d)).isSome := by
    rw [hdr]
  rw [h2] at h1
  exact h1

lemma items_map_content (md : List PyStr) (hw : wellFormed md = true) :
    (items md).map NewsItem.content = specBullets md := by
  unfold items specBullets
  exact flat_map_content (sections md) (sections_ne_nil md)
    (fun s hs d r hdr =>
      parseDate_not_bullet (pyStrip d) (wellFormed_sec md hw s hs d r hdr))

lemma items_date_ok (md : List PyStr) (hw : wellFormed md = true) :
    ∀ i ∈ items md, (parseDate i.date).isSome = true := by
  intro i hi
  unfold items at hi
  rcases List.mem_flatten.mp hi with ⟨li, hli, hil⟩
  rcases List.mem_map.mp hli with ⟨s, hs, rfl⟩
  cases e : stripSection s with
  | nil =>
    rw [sectionItems_eq, e] at hil
    cases hil
  | cons d rest =>
    rw [sectionItems_eq, e] at hil
    rw [itemsOfLines_date (pyStrip d) rest i hil]
    exact wellFormed_sec md hw s hs d rest e

lemma bulletContents_length (ls : List PyStr) :
    (bulletContents ls).length
      = ls.countP (fun l => dashMark.isPrefixOf (pyStrip l)) := by
  induction ls with
  | nil => rfl
  | cons l ls ih =>
    rw [bulletContents_eq_filterMap, List.filterMap_cons, List.countP_cons]
    by_cases hb : dashMark.isPrefixOf (pyStrip l) = true
    · rw [show bulletOf l = some ((pyStrip l).drop 2) from by
        unfold bulletOf; rw [if_pos hb]]
      rw [List.length_cons, ← bulletContents_eq_filterMap, ih, hb]
      rfl
    · have hb2 : dashMark.isPrefixOf (pyStrip l) = false := Bool.eq_false_iff.mpr hb
      rw [show bulletOf l = none from by unfold bulletOf; rw [if_neg hb],
        ← bulletContents_eq_filterMap, ih, hb2]
      rfl

lemma specBullets_length (md : List PyStr) :
    (specBullets md).length = specBulletCount md := by
  unfold specBullets specBulletCount
  rw [List.length_flatten, List.map_map]
  congr 1
  exact List.map_congr_left (fun s _ => bulletContents_length s.tail)

/-! ### Infrastructure: the entry-building loop -/

lemma buildEntries_cons (i : NewsItem) (l : List NewsItem) :
    buildEntries (i :: l) =
      match parseDate i.date with
      | none => Except.error i.date
      | some d =>
        match buildEntries l with
        | Except.error e => Except.error e
        | Except.ok es =>
          Except.ok (⟨titleOf i.content, markdownHtml i.content, awareOf d⟩ :: es) := rfl

lemma buildEntries_ok (l : List NewsItem)
    (h : ∀ i ∈ l, (parseDate i.date).isSome = true) :
    ∃ es, buildEntries l = Except.ok es ∧
      es.map FeedEntry.title = l.map (fun i => titleOf i.content) ∧
      es.map FeedEntry.descriptionHtml = l.map (fun i => markdownHtml i.content) ∧
      es.length = l.length := by
  induction l with
  | nil => exact ⟨[], rfl, rfl, rfl, rfl⟩
  | cons i l ih =>
    rcases Option.isSome_iff_exists.mp (h i (List.mem_cons_self i l)) with ⟨dt, hdt⟩
    rcases ih (fun j hj => h j (List.mem_cons_of_mem i hj)) with ⟨es, he, h1, h2, h3⟩
    refine ⟨⟨titleOf i.content, markdownHtml i.content, awareOf dt⟩ :: es, ?_, ?_, ?_, ?_⟩
    · rw [buildEntries_cons, hdt, he]
    · rw [List.map_cons, List.map_cons, h1]
    · rw [List.map_cons, List.map_cons, h2]
    · rw [List.length_cons, List.length_cons, h3]

lemma buildEntries_error (l : List NewsItem) (i : NewsItem)
    (h : l.find? (fun j => (parseDate j.date).isNone) = some i) :
    buildEntries l = Except.error i.date := by
  induction l with
  | nil => cases h
  | cons j l ih =>
    rw [List.find?_cons] at h
    cases e : parseDate j.date with
    | none =>
      have hj : (parseDate j.date).isNone = true := by rw [e]; rfl
      rw [hj] at h
      injection h with h
      subst h
      rw [buildEntries_cons, e]
    | some d =>
      have hj : (parseDate j.date).isNone = false := by rw [e]; rfl
      rw [hj] at h
      rw [buildEntries_cons, e, ih h]

/-! ### Remaining helper lemmas -/

lemma itemsOfLines_mem (date : PyStr) (ls : List PyStr) (i : NewsItem)
    (hi : i ∈ itemsOfLines date ls) :
    ∃ l ∈ ls, dashMark.isPrefixOf (pyStrip l) = true ∧
      i = ⟨date, (pyStrip l).drop 2⟩ := by
  induction ls with
  | nil => cases hi
  | cons l ls ih =>
    rw [itemsOfLines_cons] at hi
    by_cases hb : dashMark.isPrefixOf (pyStrip l) = true
    · rw [if_pos hb] at hi
      rcases List.mem_cons.mp hi with rfl | hi
      · exact ⟨l, List.mem_cons_self l ls, hb, rfl⟩
      · rcases ih hi with ⟨l2, hl2, hb2, hi2⟩
        exact ⟨l2, List.mem_cons_of_mem l hl2, hb2, hi2⟩
    · rw [if_neg hb] at hi
      rcases ih hi with ⟨l2, hl2, hb2, hi2⟩
      exact ⟨l2, List.mem_cons_of_mem l hl2, hb2, hi2⟩

lemma pyStrip_drop2_ne_nil (l : PyStr) (h : dashMark.isPrefixOf (pyStrip l) = true) :
    (pyStrip l).drop 2 ≠ [] := by
  rcases (dashMark_isPrefixOf_iff _).mp h with ⟨r, hr⟩
  intro hnil
  have hr2 : r = [] := by rw [hr] at hnil; exact hnil
  subst hr2
  cases e : (pyStripLeft l).reverse.dropWhile isWs with
  | nil =>
    have h0 : pyStrip l = [] := by
      unfold pyStrip pyStripRight
      rw [e]
      rfl
    rw [hr] at h0
    cases h0
  | cons y ys =>
    have hy : isWs y = false := by
      have := List.head_dropWhile_not isWs (pyStripLeft l).reverse (by simp [e])
      simpa [e] using this
    have hps : pyStrip l = ys.reverse ++ [y] := by
      unfold pyStrip pyStripRight
      rw [e]
      simp
    rw [hr] at hps
    have hps2 : [' ', '-'] = y :: ys := by
      have := congrArg List.reverse hps
      simpa using this
    injection hps2 with hy2 _
    rw [← hy2] at hy
    simp [isWs] at hy

/-- Scenario input of the spec (§8): three bullets across two sections. -/
def mdScenario : List PyStr :=
  [("## 2025-05-01").data, ("- Registration opens").data, ("").data,
   ("## 2025-05-01 09:00").data, ("- Keynote speaker announced").data,
   ("- Venue map published").data]

/-- A mixed document: prose before the first heading, prose and blank and
non-bullet lines inside sections, and a heading followed directly by
another heading. -/
def mdMixed : List PyStr :=
  [("preamble").data, ("- not yet in a section").data, ("## 2025-03-08").data,
   ("Some prose line").data, ("  - indented bullet").data,
   ("-tight not a bullet").data, ("").data, ("- final").data,
   ("## 2025-03-09 02:00").data, ("## 2025-12-31").data, ("- year end").data]

/-- A document whose (only) section date string parses under neither format. -/
def mdBad : List PyStr :=
  [("## not-a-date").data, ("- Something broke").data]

/-! ### The claims -/

/-- C1: for every well-formed input document the converter succeeds and the
sequence of item elements of the written feed document corresponds, in
order, to the `- `-prefixed bullet lines of the source markdown scanned
sections top to bottom: the k-th entry's title and HTML description are
derived from the k-th bullet line's content.  Entries are emitted in parse
order; no sorting or reordering is performed. -/
theorem entry_order_matches_source (md : List PyStr) (hw : wellFormed md = true) :
    ∃ doc, convert md = Except.ok doc ∧
      doc.entries.map FeedEntry.title = (specBullets md).map titleOf ∧
      doc.entries.map FeedEntry.descriptionHtml = (specBullets md).map markdownHtml := by
  rcases buildEntries_ok (items md) (items_date_ok md hw) with ⟨es, he, h1, h2, -⟩
  refine ⟨⟨feedTitle, feedLink, feedDescription, es⟩, ?_, ?_, ?_⟩
  · unfold convert
    rw [he]
  · rw [h1, ← items_map_content md hw, List.map_map]
    rfl
  · rw [h2, ← items_map_content md hw, List.map_map]
    rfl

/-- Witness for C1 at the spec's scenario document. -/
theorem entry_order_matches_source_witness :
    wellFormed mdScenario = true ∧
    ∃ doc, convert mdScenario = Except.ok doc ∧
      doc.entries.map FeedEntry.title = (specBullets mdScenario).map titleOf ∧
      doc.entries.map FeedEntry.descriptionHtml
        = (specBullets mdScenario).map markdownHtml :=
  ⟨by decide, entry_order_matches_source mdScenario (by decide)⟩

/-- C2: the serialized output is a deterministic function of the input file
content alone; it does not depend on the wall-clock time of the run, so two
runs of the converter on the same input produce byte-identical output. -/
theorem output_deterministic (md : List PyStr) (t1 t2 : DateTime) :
    runAt t1 md = runAt t2 md := rfl

/-- C3: for every well-formed input document (one whose section date
strings all parse) the converter succeeds and the number of item elements
of the output feed equals the total number of lines that, after trimming
surrounding whitespace, start with `- `, counted across all sections. -/
theorem entry_count_eq_bullet_count (md : List PyStr) (hw : wellFormed md = true) :
    ∃ doc, convert md = Except.ok doc ∧ doc.entries.length = specBulletCount md := by
  rcases buildEntries_ok (items md) (items_date_ok md hw) with ⟨es, he, -, -, h3⟩
  refine ⟨⟨feedTitle, feedLink, feedDescription, es⟩, ?_, ?_⟩
  · unfold convert
    rw [he]
  · show es.length = specBulletCount md
    calc es.length = (items md).length := h3
      _ = ((items md).map NewsItem.content).length := (List.length_map _ _).symm
      _ = (specBullets md).length := by rw [items_map_content md hw]
      _ = specBulletCount md := specBullets_length md

/-- Witness for C3 at a mixed document (3 bullet lines in sections). -/
theorem entry_count_eq_bullet_count_witness :
    wellFormed mdMixed = true ∧
    ∃ doc, convert mdMixed = Except.ok doc ∧
      doc.entries.length = specBulletCount mdMixed :=
  ⟨by decide, entry_count_eq_bullet_count mdMixed (by decide)⟩

/-- C5: if some item's section date string matches neither accepted date
format, the run fails with the error raised at the first offending date,
processing does not continue past it, the run exits non-zero
(`Except.error`), and no output is produced whatever instant the run
started at. -/
theorem first_bad_date_aborts (md : List PyStr) (i : NewsItem)
    (h : (items md).find? (fun j => (parseDate j.date).isNone) = some i) :
    convert md = Except.error i.date ∧
      ∀ now, runAt now md = Except.error i.date := by
  have hc : convert md = Except.error i.date := by
    unfold convert
    rw [buildEntries_error (items md) i h]
  refine ⟨hc, fun now => ?_⟩
  unfold runAt
  rw [hc]

/-- Witness for C5: the date string `not-a-date` aborts the run. -/
theorem first_bad_date_aborts_witness :
    convert mdBad = Except.error ("not-a-date").data ∧
      runAt ⟨2025, 1, 1, 0, 0⟩ mdBad = Except.error ("not-a-date").data :=
  ⟨(first_bad_date_aborts mdBad ⟨("not-a-date").data, ("Something broke").data⟩
      (by decide)).1,
   (first_bad_date_aborts mdBad ⟨("not-a-date").data, ("Something broke").data⟩
      (by decide)).2 ⟨2025, 1, 1, 0, 0⟩⟩

/-- C6: the derived entry title `content[:60]` equals the content when it
has at most 60 characters, and exactly the first 60 characters (hard
cutoff, no ellipsis, no word-boundary handling) when it is longer. -/
theorem title_truncation (c : PyStr) :
    (c.length ≤ 60 → titleOf c = c) ∧
      (60 < c.length → titleOf c = c.take 60 ∧ (titleOf c).length = 60) := by
  constructor
  · intro h
    exact List.take_of_length_le h
  · intro h
    refine ⟨rfl, ?_⟩
    simp only [titleOf, List.length_take]
    omega

/-- A 70-character line, for the truncation witness. -/
def longLine : PyStr :=
  ("abcdefghij" ++ "abcdefghij" ++ "abcdefghij" ++ "abcdefghij" ++
   "abcdefghij" ++ "abcdefghij" ++ "abcdefghij").data

/-- Witness for C6 on a short and a 70-character content. -/
theorem title_truncation_witness :
    titleOf ("Registration opens").data = ("Registration opens").data ∧
      titleOf longLine = longLine.take 60 ∧ (titleOf longLine).length = 60 :=
  ⟨(title_truncation _).1 (by decide), (title_truncation longLine).2 (by decide)⟩

/-- C7: within a section whose stripped lines are `d :: rest`, a line of
`rest` yields a NewsItem if and only if it starts with `- ` after trimming
surrounding whitespace; the item's content is everything after that prefix,
and non-matching lines (blank, prose, nested structure) are skipped without
error (the extraction is total). -/
theorem bullet_line_iff (s : List PyStr) (d : PyStr) (rest : List PyStr)
    (hs : stripSection s = d :: rest) :
    sectionItems s = rest.filterMap (fun l =>
      if dashMark.isPrefixOf (pyStrip l) then
        some ⟨pyStrip d, (pyStrip l).drop 2⟩ else none) := by
  rw [sectionItems_eq, hs]
  exact itemsOfLines_eq_filterMap (pyStrip d) rest

/-- A demonstration section for the C7 witness. -/
def secDemoDate : PyStr := ("2025-01-01").data

/-- Body lines of the demonstration section. -/
def secDemoBody : List PyStr :=
  [("- a").data, ("prose").data, ("  - b").data]

/-- Witness for C7 on the demonstration section. -/
theorem bullet_line_iff_witness :
    sectionItems (secDemoDate :: secDemoBody) = secDemoBody.filterMap (fun l =>
      if dashMark.isPrefixOf (pyStrip l) then
        some ⟨pyStrip secDemoDate, (pyStrip l).drop 2⟩ else none) :=
  bullet_line_iff (secDemoDate :: secDemoBody) secDemoDate secDemoBody (by decide)

/-- C8: every NewsItem produced by the extractor has non-empty content: a
line of only a dash and whitespace (such as exactly `- `) yields no item,
because stripping happens before the `- ` test and a stripped line cannot
end in whitespace. -/
theorem item_content_nonempty (md : List PyStr) :
    (∀ i ∈ items md, i.content ≠ []) ∧
      ∀ date, itemsOfLines date [("- ").data] = [] := by
  constructor
  · intro i hi
    unfold items at hi
    rcases List.mem_flatten.mp hi with ⟨li, hli, hil⟩
    rcases List.mem_map.mp hli with ⟨s, hs, rfl⟩
    cases e : stripSection s with
    | nil =>
      rw [sectionItems_eq, e] at hil
      cases hil
    | cons d rest =>
      rw [sectionItems_eq, e] at hil
      rcases itemsOfLines_mem (pyStrip d) rest i hil with ⟨l, -, hb, rfl⟩
      exact pyStrip_drop2_ne_nil l hb
  · intro date
    rfl

/-- Witness for C8 at a document with one concrete item. -/
theorem item_content_nonempty_witness :
    ("Something broke").data ≠ ([] : PyStr) :=
  (item_content_nonempty mdBad).1
    ⟨("not-a-date").data, ("Something broke").data⟩ (by decide)

/-- C4: the date parser first attempts `%Y-%m-%d %H:%M`; only when that
attempt fails does it attempt `%Y-%m-%d`, and the fallback always yields a
midnight time.  Concretely `2025-05-03` parses to 2025-05-03 00:00 and
`2025-05-03 14:30` to 2025-05-03 14:30, and the script attaches the fixed
America/Chicago zone to each parsed value. -/
theorem date_parser_fallback :
    (∀ s d, strptimeYmdHM s = some d → parseDate s = some d) ∧
    (∀ s, strptimeYmdHM s = none → parseDate s = strptimeYmd s) ∧
    (∀ s d, strptimeYmd s = some d → d.hour = 0 ∧ d.minute = 0) ∧
    parseDate ("2025-05-03").data = some ⟨2025, 5, 3, 0, 0⟩ ∧
    awareOf ⟨2025, 5, 3, 0, 0⟩ = ⟨⟨2025, 5, 3, 0, 0⟩, central⟩ ∧
    parseDate ("2025-05-03 14:30").data = some ⟨2025, 5, 3, 14, 30⟩ ∧
    awareOf ⟨2025, 5, 3, 14, 30⟩ = ⟨⟨2025, 5, 3, 14, 30⟩, central⟩ := by
  refine ⟨?_, ?_, ?_, by decide, rfl, by decide, rfl⟩
  · intro s d h
    unfold parseDate
    rw [h]
  · intro s h
    unfold parseDate
    rw [h]
  · intro s d h
    unfold strptimeYmd at h
    simp only [Option.bind_eq_some] at h
    rcases h with ⟨py, -, s2, -, pm, -, s4, -, pd, -, hif⟩
    split at hif
    · injection hif with h2
      rw [← h2]
      exact ⟨rfl, rfl⟩
    · cases hif

/-- Witness for C4: the first format succeeds on a date-time string, and
the fallback yields midnight on a date-only string. -/
theorem date_parser_fallback_witness :
    parseDate ("2025-05-03 14:30").data = some ⟨2025, 5, 3, 14, 30⟩ ∧
      ((⟨2025, 5, 3, 0, 0⟩ : DateTime).hour = 0 ∧
        (⟨2025, 5, 3, 0, 0⟩ : DateTime).minute = 0) :=
  ⟨date_parser_fallback.1 (("2025-05-03 14:30").data) ⟨2025, 5, 3, 14, 30⟩
      (by decide),
   date_parser_fallback.2.2.1 (("2025-05-03").data) ⟨2025, 5, 3, 0, 0⟩
      (by decide)⟩

/-- C10: the parsed civil time is attached to the single fixed
America/Chicago zone without conversion, and the numeric UTC offset
serialized with an entry's publication date depends on that entry's own
date under the zone's daylight-saving rules: −05:00 for a May 2025 date,
−06:00 for a January 2025 date — one fixed zone, but not one fixed
numeric offset. -/
theorem zone_offset_varies :
    (∀ d : DateTime, (awareOf d).dt = d ∧ (awareOf d).tz = central) ∧
    utcoffsetMinutes (awareOf ⟨2025, 5, 3, 0, 0⟩) = -300 ∧
    utcoffsetMinutes (awareOf ⟨2025, 1, 15, 0, 0⟩) = -360 ∧
    offsetStr (utcoffsetMinutes (awareOf ⟨2025, 5, 3, 0, 0⟩)) = ("-0500").data ∧
    offsetStr (utcoffsetMinutes (awareOf ⟨2025, 1, 15, 0, 0⟩)) = ("-0600").data :=
  ⟨fun d => ⟨rfl, rfl⟩, by decide, by decide, by decide, by decide⟩

/-! ### C9: literal formats versus accepted strings -/

/-- Spec-side, from the claim's wording: a string matching `YYYY-MM-DD`
literally — ten characters, four digits, `-`, two digits, `-`, two digits,
with the month and day fields in range and denoting an existing calendar
date. -/
def literalYmd (s : PyStr) : Bool :=
  match s with
  | [y1, y2, y3, y4, c1, m1, m2, c2, d1, d2] =>
    decide (isDig y1 = true ∧ isDig y2 = true ∧ isDig y3 = true ∧ isDig y4 = true ∧
      c1 = '-' ∧ isDig m1 = true ∧ isDig m2 = true ∧ c2 = '-' ∧
      isDig d1 = true ∧ isDig d2 = true ∧
      1 ≤ digitsVal [y1, y2, y3, y4] ∧
      1 ≤ digitsVal [m1, m2] ∧ digitsVal [m1, m2] ≤ 12 ∧
      1 ≤ digitsVal [d1, d2] ∧
      digitsVal [d1, d2] ≤ daysInMonth (digitsVal [y1, y2, y3, y4]) (digitsVal [m1, m2]))
  | _ => false

/-- Spec-side, from the claim's wording: a string matching
`YYYY-MM-DD HH:MM` literally — sixteen characters with zero-padded
two-digit fields, in-range hour and minute, and an existing calendar date. -/
def literalYmdHM (s : PyStr) : Bool :=
  match s with
  | [y1, y2, y3, y4, c1, m1, m2, c2, d1, d2, c3, h1, h2, c4, n1, n2] =>
    decide (isDig y1 = true ∧ isDig y2 = true ∧ isDig y3 = true ∧ isDig y4 = true ∧
      c1 = '-' ∧ isDig m1 = true ∧ isDig m2 = true ∧ c2 = '-' ∧
      isDig d1 = true ∧ isDig d2 = true ∧ c3 = ' ' ∧
      isDig h1 = true ∧ isDig h2 = true ∧ c4 = ':' ∧
      isDig n1 = true ∧ isDig n2 = true ∧
      1 ≤ digitsVal [y1, y2, y3, y4] ∧
      1 ≤ digitsVal [m1, m2] ∧ digitsVal [m1, m2] ≤ 12 ∧
      1 ≤ digitsVal [d1, d2] ∧
      digitsVal [d1, d2] ≤ daysInMonth (digitsVal [y1, y2, y3, y4]) (digitsVal [m1, m2]) ∧
      digitsVal [h1, h2] ≤ 23 ∧ digitsVal [n1, n2] ≤ 59)
  | _ => false

lemma dval_lt_ten (c : Char) (h : isDig c = true) : dval c < 10 := by
  unfold isDig at h
  simp only [Bool.and_eq_true, decide_eq_true_eq] at h
  unfold dval
  omega

lemma digitsVal_two (a b : Char) : digitsVal [a, b] = dval a * 10 + dval b := by
  simp [digitsVal, List.foldl]

lemma digitsVal_four (a b c d : Char) :
    digitsVal [a, b, c, d]
      = ((dval a * 10 + dval b) * 10 + dval c) * 10 + dval d := by
  simp [digitsVal, List.foldl]

lemma isDig_not_isWs (c : Char) (h : isDig c = true) : isWs c = false := by
  unfold isDig at h
  simp only [Bool.and_eq_true, decide_eq_true_eq] at h
  have hne : ∀ d : Char, d.toNat < 48 → (c == d) = false := by
    intro d hd
    refine beq_eq_false_iff_ne.mpr ?_
    intro he
    subst he
    omega
  unfold isWs
  rw [hne ' ' (by decide), hne '\t' (by decide), hne '\n' (by decide),
    hne '\r' (by decide)]
  rfl

lemma readField_eval (minL maxL lo hi : Nat) (ds rest : PyStr)
    (hds : ∀ c ∈ ds, isDig c = true)
    (ht : rest.takeWhile isDig = []) (hd : rest.dropWhile isDig = rest)
    (hlen1 : minL ≤ ds.length) (hlen2 : ds.length ≤ maxL)
    (hlo : lo ≤ digitsVal ds) (hhi : digitsVal ds ≤ hi) :
    readField minL maxL lo hi (ds ++ rest) = some (digitsVal ds, rest) := by
  unfold readField
  rw [List.takeWhile_append_of_pos hds, List.dropWhile_append_of_pos hds, ht, hd,
    List.append_nil]
  rw [if_pos ⟨hlen1, hlen2, hlo, hhi⟩]

lemma daysInMonth_le_31 (y m : Nat) : daysInMonth y m ≤ 31 := by
  unfold daysInMonth
  split
  · split <;> omega
  · split <;> omega

lemma lit_cons (c : Char) (xs : PyStr) : lit c (c :: xs) = some xs := by
  show (if c = c then some xs else none) = some xs
  rw [if_pos rfl]

lemma litWs_cons_digit (h1 : Char) (xs : PyStr) (hdig : isDig h1 = true) :
    litWs (' ' :: h1 :: xs) = some (h1 :: xs) := by
  show (if isWs ' ' = true then some ((h1 :: xs).dropWhile isWs) else none)
    = some (h1 :: xs)
  rw [if_pos (by decide), List.dropWhile_cons_of_neg (by simp [isDig_not_isWs h1 hdig])]

lemma parseDate_isSome_of_first (s : PyStr)
    (h : (strptimeYmdHM s).isSome = true) : (parseDate s).isSome = true := by
  rcases Option.isSome_iff_exists.mp h with ⟨d, hd⟩
  unfold parseDate
  rw [hd]
  rfl

lemma parseDate_isSome_of_second (s : PyStr)
    (h : (strptimeYmd s).isSome = true) : (parseDate s).isSome = true := by
  unfold parseDate
  cases e : strptimeYmdHM s with
  | some d => rfl
  | none => exact h

lemma literalYmd_parses (s : PyStr) (h : literalYmd s = true) :
    (strptimeYmd s).isSome = true := by
  unfold literalYmd at h
  split at h
  case h_2 => cases h
  case h_1 y1 y2 y3 y4 c1 m1 m2 c2 d1 d2 =>
    have hp := of_decide_eq_true h
    obtain ⟨hy1, hy2, hy3, hy4, hc1, hm1, hm2, hc2, hd1, hd2, hylo, hmlo, hmhi,
      hdlo, hdhi⟩ := hp
    subst hc1
    subst hc2
    have by1 := dval_lt_ten y1 hy1
    have by2 := dval_lt_ten y2 hy2
    have by3 := dval_lt_ten y3 hy3
    have by4 := dval_lt_ten y4 hy4
    have e1 : readField 4 4 0 9999 [y1, y2, y3, y4, '-', m1, m2, '-', d1, d2]
        = some (digitsVal [y1, y2, y3, y4], ['-', m1, m2, '-', d1, d2]) := by
      refine readField_eval 4 4 0 9999 [y1, y2, y3, y4] ['-', m1, m2, '-', d1, d2]
        ?_ ?_ ?_ ?_ ?_ ?_ ?_
      · intro c hc
        simp only [List.mem_cons, List.not_mem_nil, or_false] at hc
        rcases hc with rfl | rfl | rfl | rfl <;> assumption
      · rw [List.takeWhile_cons_of_neg (by decide)]
      · rw [List.dropWhile_cons_of_neg (by decide)]
      · simp
      · simp
      · exact Nat.zero_le _
      · rw [digitsVal_four]
        omega
    have e2 : readField 1 2 1 12 [m1, m2, '-', d1, d2]
        = some (digitsVal [m1, m2], ['-', d1, d2]) := by
      refine readField_eval 1 2 1 12 [m1, m2] ['-', d1, d2] ?_ ?_ ?_ ?_ ?_ ?_ ?_
      · intro c hc
        simp only [List.mem_cons, List.not_mem_nil, or_false] at hc
        rcases hc with rfl | rfl <;> assumption
      · rw [List.takeWhile_cons_of_neg (by decide)]
      · rw [List.dropWhile_cons_of_neg (by decide)]
      · simp
      · simp
      · exact hmlo
      · exact hmhi
    have e3 : readField 1 2 1 31 [d1, d2] = some (digitsVal [d1, d2], []) := by
      refine readField_eval 1 2 1 31 [d1, d2] [] ?_ ?_ ?_ ?_ ?_ ?_ ?_
      · intro c hc
        simp only [List.mem_cons, List.not_mem_nil, or_false] at hc
        rcases hc with rfl | rfl <;> assumption
      · rfl
      · rfl
      · simp
      · simp
      · exact hdlo
      · exact Nat.le_trans hdhi (daysInMonth_le_31 _ _)
    unfold strptimeYmd
    rw [e1, Option.some_bind]
    simp only
    rw [lit_cons, Option.some_bind]
    rw [e2, Option.some_bind]
    simp only
    rw [lit_cons, Option.some_bind]
    rw [e3, Option.some_bind]
    simp only
    rw [if_pos ⟨trivial, hylo, hdhi⟩]
    rfl

lemma literalYmdHM_parses (s : PyStr) (h : literalYmdHM s = true) :
    (strptimeYmdHM s).isSome = true := by
  unfold literalYmdHM at h
  split at h
  case h_2 => cases h
  case h_1 y1 y2 y3 y4 c1 m1 m2 c2 d1 d2 c3 h1 h2 c4 n1 n2 =>
    have hp := of_decide_eq_true h
    obtain ⟨hy1, hy2, hy3, hy4, hc1, hm1, hm2, hc2, hd1, hd2, hc3, hh1, hh2, hc4,
      hn1, hn2, hylo, hmlo, hmhi, hdlo, hdhi, hhhi, hnhi⟩ := hp
    subst hc1
    subst hc2
    subst hc3
    subst hc4
    have by1 := dval_lt_ten y1 hy1
    have by2 := dval_lt_ten y2 hy2
    have by3 := dval_lt_ten y3 hy3
    have by4 := dval_lt_ten y4 hy4
    have e1 : readField 4 4 0 9999
        [y1, y2, y3, y4, '-', m1, m2, '-', d1, d2, ' ', h1, h2, ':', n1, n2]
        = some (digitsVal [y1, y2, y3, y4],
            ['-', m1, m2, '-', d1, d2, ' ', h1, h2, ':', n1, n2]) := by
      refine readField_eval 4 4 0 9999 [y1, y2, y3, y4]
        ['-', m1, m2, '-', d1, d2, ' ', h1, h2, ':', n1, n2] ?_ ?_ ?_ ?_ ?_ ?_ ?_
      · intro c hc
        simp only [List.mem_cons, List.not_mem_nil, or_false] at hc
        rcases hc with rfl | rfl | rfl | rfl <;> assumption
      · rw [List.takeWhile_cons_of_neg (by decide)]
      · rw [List.dropWhile_cons_of_neg (by decide)]
      · simp
      · simp
      · exact Nat.zero_le _
      · rw [digitsVal_four]
        omega
    have e2 : readField 1 2 1 12 [m1, m2, '-', d1, d2, ' ', h1, h2, ':', n1, n2]
        = some (digitsVal [m1, m2], ['-', d1, d2, ' ', h1, h2, ':', n1, n2]) := by
      refine readField_eval 1 2 1 12 [m1, m2]
        ['-', d1, d2, ' ', h1, h2, ':', n1, n2] ?_ ?_ ?_ ?_ ?_ ?_ ?_
      · intro c hc
        simp only [List.mem_cons, List.not_mem_nil, or_false] at hc
        rcases hc with rfl | rfl <;> assumption
      · rw [List.takeWhile_cons_of_neg (by decide)]
      · rw [List.dropWhile_cons_of_neg (by decide)]
      · simp
      · simp
      · exact hmlo
      · exact hmhi
    have e3 : readField 1 2 1 31 [d1, d2, ' ', h1, h2, ':', n1, n2]
        = some (digitsVal [d1, d2], [' ', h1, h2, ':', n1, n2]) := by
      refine readField_eval 1 2 1 31 [d1, d2] [' ', h1, h2, ':', n1, n2]
        ?_ ?_ ?_ ?_ ?_ ?_ ?_
      · intro c hc
        simp only [List.mem_cons, List.not_mem_nil, or_false] at hc
        rcases hc with rfl | rfl <;> assumption
      · rw [List.takeWhile_cons_of_neg (by decide)]
      · rw [List.dropWhile_cons_of_neg (by decide)]
      · simp
      · simp
      · exact hdlo
      · exact Nat.le_trans hdhi (daysInMonth_le_31 _ _)
    have e4 : readField 1 2 0 23 [h1, h2, ':', n1, n2]
        = some (digitsVal [h1, h2], [':', n1, n2]) := by
      refine readField_eval 1 2 0 23 [h1, h2] [':', n1, n2] ?_ ?_ ?_ ?_ ?_ ?_ ?_
      · intro c hc
        simp only [List.mem_cons, List.not_mem_nil, or_false] at hc
        rcases hc with rfl | rfl <;> assumption
      · rw [List.takeWhile_cons_of_neg (by decide)]
      · rw [List.dropWhile_cons_of_neg (by decide)]
      · simp
      · simp
      · exact Nat.zero_le _
      · exact hhhi
    have e5 : readField 1 2 0 59 [n1, n2] = some (digitsVal [n1, n2], []) := by
      refine readField_eval 1 2 0 59 [n1, n2] [] ?_ ?_ ?_ ?_ ?_ ?_ ?_
      · intro c hc
        simp only [List.mem_cons, List.not_mem_nil, or_false] at hc
        rcases hc with rfl | rfl <;> assumption
      · rfl
      · rfl
      · simp
      · simp
      · exact Nat.zero_le _
      · exact hnhi
    unfold strptimeYmdHM
    rw [e1, Option.some_bind]
    simp only
    rw [lit_cons, Option.some_bind]
    rw [e2, Option.some_bind]
    simp only
    rw [lit_cons, Option.some_bind]
    rw [e3, Option.some_bind]
    simp only
    rw [litWs_cons_digit h1 [h2, ':', n1, n2] hh1, Option.some_bind]
    rw [e4, Option.some_bind]
    simp only
    rw [lit_cons, Option.some_bind]
    rw [e5, Option.some_bind]
    simp only
    rw [if_pos ⟨trivial, hylo, hdhi⟩]
    rfl

/-- C9: the date parser accepts strings outside the two documented
formats, because the numeric fields accept unpadded digits: `2025-5-3` and
`2025-05-03 9:05` parse to the corresponding civil times in spite of
matching neither literal format, while every string literally of either
format (denoting a real calendar date) is accepted too — so the set of
accepted date strings strictly contains the set of literally-matching
strings. -/
theorem accepts_beyond_literal_formats :
    parseDate ("2025-5-3").data = some ⟨2025, 5, 3, 0, 0⟩ ∧
    parseDate ("2025-05-03 9:05").data = some ⟨2025, 5, 3, 9, 5⟩ ∧
    literalYmd ("2025-5-3").data = false ∧
    literalYmdHM ("2025-5-3").data = false ∧
    literalYmd ("2025-05-03 9:05").data = false ∧
    literalYmdHM ("2025-05-03 9:05").data = false ∧
    (∀ s, literalYmd s = true → (parseDate s).isSome = true) ∧
    (∀ s, literalYmdHM s = true → (parseDate s).isSome = true) := by
  refine ⟨by decide, by decide, by decide, by decide, by decide, by decide, ?_, ?_⟩
  · intro s hs
    exact parseDate_isSome_of_second s (literalYmd_parses s hs)
  · intro s hs
    exact parseDate_isSome_of_first s (literalYmdHM_parses s hs)

/-- Witness for C9: the padded literal strings are accepted via the
superset direction. -/
theorem accepts_beyond_literal_formats_witness :
    (parseDate ("2025-05-03").data).isSome = true ∧
      (parseDate ("2025-05-03 14:30").data).isSome = true :=
  ⟨accepts_beyond_literal_formats.2.2.2.2.2.2.1 (("2025-05-03").data) (by decide),
   accepts_beyond_literal_formats.2.2.2.2.2.2.2 (("2025-05-03 14:30").data)
     (by decide)⟩
